import Mathlib

/-!
Shallow embedding of the contract-review pipeline
(`process_document.ts` / `extract_knowledge.ts` and the contract PUT route).

JavaScript strings are modelled as Lean `String`s, and the handful of
JavaScript string primitives the code uses (`split('\n\n')`, `trim()`,
`toLowerCase()`, `includes(...)`, truthiness of a string) are given
structural definitions over `String.data`, so that every definition
evaluates inside the kernel.
-/

/-! ### String primitives (models of the JavaScript operations used) -/

/-- Whitespace test used by the model of `String.prototype.trim`. -/
def isWsChar (c : Char) : Bool :=
  c = ' ' || c = '\n' || c = '\t' || c = '\r'

/-- Model of `s.trim()`: drop whitespace from both ends. -/
def trimStr (s : String) : String :=
  ⟨((s.data.dropWhile isWsChar).reverse.dropWhile isWsChar).reverse⟩

/-- A string is falsy in JavaScript exactly when it is empty. -/
def strIsEmpty (s : String) : Bool := s.data.isEmpty

/-- Model of `s.startsWith(pat)`. -/
def strStartsWith (s pat : String) : Bool := List.isPrefixOf pat.data s.data

/-- Model of `s.endsWith(pat)`. -/
def strEndsWith (s pat : String) : Bool := List.isSuffixOf pat.data s.data

/-- Substring containment on char lists, scanning left to right. -/
def listContainsSub (pat : List Char) : List Char → Bool
  | [] => List.isPrefixOf pat []
  | c :: rest => List.isPrefixOf pat (c :: rest) || listContainsSub pat rest

/-- Model of `s.includes(pat)`. -/
def containsSub (s pat : String) : Bool := listContainsSub pat.data s.data

/-- Model of `s.toLowerCase()` (character-wise lowering). -/
def toLowerStr (s : String) : String := ⟨s.data.map Char.toLower⟩

/-- Auxiliary for `splitOnBlank`: split a char list at each
non-overlapping occurrence of `"\n\n"`, left to right. -/
def splitBlankAux : List Char → List Char → List String
  | [], acc => [⟨acc.reverse⟩]
  | '\n' :: '\n' :: rest, acc => (⟨acc.reverse⟩ : String) :: splitBlankAux rest []
  | c :: rest, acc => splitBlankAux rest (c :: acc)

/-- Model of `text.split('\n\n')`: paragraphs on blank-line boundaries.
On the empty string it returns `[""]`, as in JavaScript. -/
def splitOnBlank (s : String) : List String := splitBlankAux s.data []

/-- Concatenation of a list of strings, in order. -/
def joinStr : List String → String
  | [] => ""
  | s :: rest => s ++ joinStr rest

/-! ### OCR JSON shard model (`extractTextFromOcrJson`, lines 201-262)

The OCR engine's output shards are raw JSON; the extractor only ever looks
at the fields modelled here.  An `Option` field is `none` when the JSON
object lacks the field (JavaScript `undefined`, which is falsy); a present
array is always truthy in JavaScript, even when empty. -/

structure OcrSymbol where
  text : Option String
deriving DecidableEq

structure OcrWord where
  symbols : Option (List OcrSymbol)
deriving DecidableEq

structure OcrParagraph where
  words : Option (List OcrWord)
deriving DecidableEq

structure OcrBlock where
  paragraphs : Option (List OcrParagraph)
deriving DecidableEq

structure OcrPage where
  blocks : Option (List OcrBlock)
deriving DecidableEq

/-- The `fullTextAnnotation` object of one OCR response. -/
structure FullTextAnno where
  text : Option String
  pages : Option (List OcrPage)
deriving DecidableEq

/-- One element of the shard's top-level `responses` array;
`fta` models its `fullTextAnnotation` field. -/
structure OcrResponse where
  fta : Option FullTextAnno
deriving DecidableEq

/-- One OCR shard: a JSON object with an optional `responses` array. -/
structure OcrJson where
  responses : Option (List OcrResponse)
deriving DecidableEq

/-- Direct-path contribution of one response (lines 208-212):
`if (response.fullTextAnnotation && response.fullTextAnnotation.text)`
appends `text + '\n\n'`; an absent or empty `text` field is falsy and
contributes nothing. -/
def responseDirectText (r : OcrResponse) : String :=
  match r.fta with
  | some a =>
    match a.text with
    | some t => if strIsEmpty t then "" else t ++ "\n\n"
    | none => ""
  | none => ""

/-- The direct path over the whole `responses` array. -/
def directText (rs : List OcrResponse) : String :=
  joinStr (rs.map responseDirectText)

/-- Symbol contribution: `symbol.text || ''` (line 242). -/
def symbolText (s : OcrSymbol) : String := s.text.getD ""

/-- Word contribution: symbols concatenated, then `' '` — the space is
added only inside `if (word.symbols)` (lines 238-245). -/
def wordText (w : OcrWord) : String :=
  match w.symbols with
  | some syms => joinStr (syms.map symbolText) ++ " "
  | none => ""

/-- Paragraph contribution: the `'\n'` is appended for every paragraph,
whether or not it has a `words` field (lines 235-248). -/
def paragraphText (p : OcrParagraph) : String :=
  (match p.words with
   | some ws => joinStr (ws.map wordText)
   | none => "") ++ "\n"

/-- Block contribution (lines 232-250). -/
def blockText (b : OcrBlock) : String :=
  match b.paragraphs with
  | some ps => joinStr (ps.map paragraphText)
  | none => ""

/-- Page contribution: the blank line `'\n\n'` is appended inside
`if (page.blocks)`, so only pages carrying a `blocks` array emit it
(lines 230-254). -/
def pageText (pg : OcrPage) : String :=
  match pg.blocks with
  | some bs => joinStr (bs.map blockText) ++ "\n\n"
  | none => ""

/-- The structural fallback walk over `responses[0].fullTextAnnotation.pages`. -/
def structuralText (pages : List OcrPage) : String :=
  joinStr (pages.map pageText)

/-- `extractTextFromOcrJson` (lines 201-262): direct path over all
responses; if it produced nothing, the structural walk over the pages of
the FIRST response only; the result is trimmed. -/
def extractTextFromOcrJson (j : OcrJson) : String :=
  let direct :=
    match j.responses with
    | some rs => directText rs
    | none => ""
  let text :=
    if strIsEmpty direct then
      match j.responses with
      | some (r0 :: _) =>
        match r0.fta with
        | some a =>
          match a.pages with
          | some pgs => structuralText pgs
          | none => ""
        | none => ""
      | _ => ""
    else direct
  trimStr text

example : extractTextFromOcrJson ⟨some [⟨some ⟨some "Hello World", none⟩⟩]⟩ = "Hello World" := by decide
example : splitOnBlank "a\n\n\nb" = ["a", "\nb"] := by decide
example : trimStr "  x \n\n" = "x" := by decide

/-! ### Clause extraction (`extract_knowledge.ts`, lines 264-383) -/

/-- The result pair returned by both extractors. -/
structure ExtractionResult where
  indemnificationText : String
  terminationText : String
deriving DecidableEq

/-- Sentinel for an absent indemnification clause (lines 326, 380). -/
def noIndemnification : String := "No indemnification clause found."

/-- Sentinel for an absent termination clause (lines 328, 381). -/
def noTermination : String := "No termination for convenience clause found."

/-- Indemnification test of one paragraph (lines 361-366), on the
lower-cased paragraph. -/
def indemnMatch (p : String) : Bool :=
  let lp := toLowerStr p
  containsSub lp "indemnif" || containsSub lp "liability" ||
    containsSub lp "data breach" || containsSub lp "security breach"

/-- Termination test of one paragraph (lines 371-374): a termination stem
AND one of the two qualifiers. -/
def termMatch (p : String) : Bool :=
  let lp := toLowerStr p
  containsSub lp "terminat" &&
    (containsSub lp "convenience" || containsSub lp "at will")

/-- The single left-to-right loop of `extractClausesWithKeywords`
(lines 357-377), accumulating the two buffers. -/
def keywordScan : List String → String → String → String × String
  | [], ind, term => (ind, term)
  | p :: ps, ind, term =>
    let ind' := if indemnMatch p then ind ++ p ++ "\n\n" else ind
    let term' := if termMatch p then term ++ p ++ "\n\n" else term
    keywordScan ps ind' term'

/-- `extractClausesWithKeywords` (lines 347-383): split on blank lines,
scan, then trim each buffer, replacing an empty one by its sentinel
(`buffer.trim() || sentinel`). -/
def extractClausesWithKeywords (text : String) : ExtractionResult :=
  let bufs := keywordScan (splitOnBlank text) "" ""
  { indemnificationText :=
      if strIsEmpty (trimStr bufs.1) then noIndemnification else trimStr bufs.1
    terminationText :=
      if strIsEmpty (trimStr bufs.2) then noTermination else trimStr bufs.2 }

/-- The shape JSON.parse gives the AI response once it parses: the two
clause fields, each possibly absent. -/
structure ParsedAiResponse where
  indemnificationText : Option String
  terminationText : Option String
deriving DecidableEq

/-- `value || sentinel`: a missing or empty (falsy) field is replaced by
the sentinel (lines 324-329). -/
def jsTruthyOr (v : Option String) (d : String) : String :=
  match v with
  | some s => if strIsEmpty s then d else s
  | none => d

/-- The pair built from a successfully parsed AI response (lines 324-329). -/
def aiPairOf (p : ParsedAiResponse) : ExtractionResult :=
  { indemnificationText := jsTruthyOr p.indemnificationText noIndemnification
    terminationText := jsTruthyOr p.terminationText noTermination }

/-- First index of a character in a char list. -/
def firstIdxOf (c : Char) (l : List Char) : Option Nat := l.findIdx? (· = c)

/-- Last index of a character in a char list. -/
def lastIdxOf (c : Char) (l : List Char) : Option Nat :=
  match l.reverse.findIdx? (· = c) with
  | some k => some (l.length - 1 - k)
  | none => none

/-- The regex match `responseContent.match(/\x7b[\s\S]*\x7d/)` (line 313):
greedy, so it matches from the first opening brace to the last closing
brace, provided the former comes strictly before the latter. -/
def jsonObjectMatch (s : String) : Option String :=
  let cs := s.data
  match firstIdxOf (Char.ofNat 123) cs, lastIdxOf (Char.ofNat 125) cs with
  | some i, some j => if i < j then some ⟨(cs.drop i).take (j - i + 1)⟩ else none
  | _, _ => none

/-- The two-stage parse of the AI response (lines 312-322): parse the
brace-matched substring when one exists, otherwise parse the entire
response.  `jsonParse` models the host `JSON.parse`, `none` standing for
a parse exception. -/
def aiResponseParses (jsonParse : String → Option ParsedAiResponse)
    (responseContent : String) : Option ParsedAiResponse :=
  match jsonObjectMatch responseContent with
  | some m => jsonParse m
  | none => jsonParse responseContent

/-- The AI path fails (lines 305-343) when the model call itself failed
(`none`), when the response content is empty (the thrown
`Empty response from AI service` is caught by the outer handler), or when
neither parse strategy succeeds. -/
def aiPathFails (jsonParse : String → Option ParsedAiResponse)
    (aiResult : Option String) : Bool :=
  match aiResult with
  | none => true
  | some c => strIsEmpty c || (aiResponseParses jsonParse c).isNone

/-- `extractClausesWithAI` (lines 265-344).  The model call is modelled by
its outcome `aiResult` (`none` = the call threw) and `JSON.parse` by
`jsonParse`; every exception is caught and routed to the keyword fallback
on the same input text. -/
def extractClausesWithAI (jsonParse : String → Option ParsedAiResponse)
    (aiResult : Option String) (text : String) : ExtractionResult :=
  match aiResult with
  | none => extractClausesWithKeywords text
  | some responseContent =>
    if strIsEmpty responseContent then extractClausesWithKeywords text
    else
      match aiResponseParses jsonParse responseContent with
      | some parsed => aiPairOf parsed
      | none => extractClausesWithKeywords text

example : extractClausesWithKeywords "" = ⟨noIndemnification, noTermination⟩ := by decide
example :
    extractClausesWithKeywords "The vendor shall have liability.\n\nMay terminate at will." =
      ⟨"The vendor shall have liability.", "May terminate at will."⟩ := by decide
example : jsonObjectMatch "ab" = none := by decide
example : jsonObjectMatch "x\x7ba\x7dy" = some "\x7ba\x7d" := by decide

/-! ### Status persistence (`updateContractStatus`, lines 386-417 and 19-32) -/

/-- Outcome of the remote `axios.put`, supplied by the environment. -/
inductive PutOutcome where
  | ok (code : Nat)
  | err (msg : String)
deriving DecidableEq

/-- The payload sent to the record store: `{ status }`, plus each clause
field only when its string is truthy (lines 397-407). -/
structure UpdatePayload where
  status : String
  indemnificationText : Option String
  terminationText : Option String
deriving DecidableEq

/-- Payload construction of `updateContractStatus` (lines 397-407):
`if (clauses.indemnificationText)` / `if (clauses.terminationText)` add
the field only when the string is non-empty. -/
def buildPayload (status : String) (clauses : Option ExtractionResult) : UpdatePayload :=
  { status := status
    indemnificationText :=
      match clauses with
      | some c => if strIsEmpty c.indemnificationText then none else some c.indemnificationText
      | none => none
    terminationText :=
      match clauses with
      | some c => if strIsEmpty c.terminationText then none else some c.terminationText
      | none => none }

/-- One issued status update: the payload that was sent, whether the call
raised past `updateContractStatus`, and whether an error was logged. -/
structure UpdateCall where
  payload : UpdatePayload
  raised : Bool
  errorLogged : Bool
deriving DecidableEq

/-- `updateContractStatus` (lines 386-417; the clause-free variant of
lines 19-32 is the `clauses = none` case): the remote put is wrapped in
`try/catch`, so a failed put is logged and the function returns normally
either way. -/
def updateContractStatus (put : PutOutcome) (status : String)
    (clauses : Option ExtractionResult) : UpdateCall :=
  match put with
  | .ok _ => { payload := buildPayload status clauses, raised := false, errorLogged := false }
  | .err _ => { payload := buildPayload status clauses, raised := false, errorLogged := true }

/-! ### Shard loop and orchestrator (`extractKnowledge`, lines 419-529;
`main`, lines 117-149) -/

/-- One object returned by the bucket listing, as the shard loop sees it:
its name, whether `file.download()` succeeds, and the outcome of
`JSON.parse` on its content (`none` = the parse throws). -/
structure OcrFile where
  name : String
  downloadOk : Bool
  parsed : Option OcrJson

/-- The shard loop of `extractKnowledge` (lines 445-471): skip non-JSON
names; a failed download throws out of the loop (`none`); a failed
`JSON.parse` is caught, logged and skipped; otherwise the extracted text,
when non-empty, is appended with a blank-line separator. -/
def accumulateShards : List OcrFile → String → Option String
  | [], acc => some acc
  | f :: fs, acc =>
    if strEndsWith f.name ".json" then
      if f.downloadOk then
        match f.parsed with
        | some j =>
          let t := extractTextFromOcrJson j
          if strIsEmpty t then accumulateShards fs acc
          else accumulateShards fs (acc ++ t ++ "\n\n")
        | none => accumulateShards fs acc
      else none
    else accumulateShards fs acc

/-- The spec's `reassemble(shards)`: the same loop (lines 445-471)
specialised to shards that downloaded and parsed. -/
def reassemble (shards : List OcrJson) : String :=
  shards.foldl
    (fun acc sh =>
      let t := extractTextFromOcrJson sh
      if strIsEmpty t then acc else acc ++ t ++ "\n\n")
    ""

/-- Environment of one `extractKnowledge` run: whether the bucket listing
succeeds, the listed files, whether the two groups of filesystem writes
succeed (the combined-text write before extraction, the clause-file
writes after it), and the AI-call environment. -/
structure EKEnv where
  listOk : Bool
  files : List OcrFile
  fsOk : Bool
  fsOk2 : Bool
  jsonParse : String → Option ParsedAiResponse
  aiResult : Option String

/-- Exit behaviour of the `extract_knowledge` process. -/
inductive ExitOutcome where
  | normal
  | exitFailure
deriving DecidableEq

/-- Result of one `extractKnowledge` run: the status updates it issued,
in order, and how the process exited. -/
structure EKResult where
  calls : List UpdateCall
  outcome : ExitOutcome

/-- `extractKnowledge` (lines 419-529), as the sequence of status updates
it issues and its exit outcome.  `puts` gives the remote outcome of each
status update in call order.  The `'extracting'` update is issued first;
any exception afterwards (invalid URI, listing failure, download failure,
filesystem failure) reaches the catch block, which issues `'failed'` and
exits with code 1; the success path issues `'completed'` together with
both clauses. -/
def extractKnowledge (puts : Nat → PutOutcome) (env : EKEnv) (gsUri : String) : EKResult :=
  let c0 := updateContractStatus (puts 0) "extracting" none
  if strStartsWith gsUri "gs://" then
    if env.listOk then
      match accumulateShards env.files "" with
      | some combined =>
        if env.fsOk then
          let clauses := extractClausesWithAI env.jsonParse env.aiResult combined
          if env.fsOk2 then
            { calls := [c0, updateContractStatus (puts 1) "completed" (some clauses)]
              outcome := .normal }
          else
            { calls := [c0, updateContractStatus (puts 1) "failed" none]
              outcome := .exitFailure }
        else
          { calls := [c0, updateContractStatus (puts 1) "failed" none]
            outcome := .exitFailure }
      | none =>
        { calls := [c0, updateContractStatus (puts 1) "failed" none]
          outcome := .exitFailure }
    else
      { calls := [c0, updateContractStatus (puts 1) "failed" none]
        outcome := .exitFailure }
  else
    { calls := [c0, updateContractStatus (puts 1) "failed" none]
      outcome := .exitFailure }

/-- Default bucket name (line 139). -/
def bucketName : String := "fb_dioptra_process"

/-- The OCR output prefix handed to `runExtractKnowledge` (lines 139-141). -/
def outputGcsUri (id : String) : String :=
  "gs://" ++ bucketName ++ "/output/" ++ id ++ "/"

/-- Environment of one `main` run of `process_document.ts`: whether the
OCR submission/completion succeeds, and the environment of the spawned
`extract_knowledge` process. -/
structure MainEnv where
  ocrOk : Bool
  ek : EKEnv

/-- `main` (lines 117-149), as the full sequence of status updates the
run issues (its own and those of the spawned `extractKnowledge`).  With a
missing argument it exits before any update.  Otherwise it issues
`'processing'`; an OCR failure reaches the catch block, which issues
`'failed'`; otherwise `extractKnowledge` runs, and a non-zero exit of
that process rejects `runExtractKnowledge`, so the catch block issues
`'failed'` after the child's own updates. -/
def mainRun (mputs eputs : Nat → PutOutcome) (env : MainEnv) (id gcsUri : String) :
    List UpdateCall :=
  if strIsEmpty id || strIsEmpty gcsUri then []
  else
    let u0 := updateContractStatus (mputs 0) "processing" none
    if env.ocrOk then
      let ekRes := extractKnowledge eputs env.ek (outputGcsUri id)
      match ekRes.outcome with
      | .normal => u0 :: ekRes.calls
      | .exitFailure => u0 :: ekRes.calls ++ [updateContractStatus (mputs 1) "failed" none]
    else [u0, updateContractStatus (mputs 1) "failed" none]

/-! ### Record-update endpoint (`PUT` in `api/contracts/[id]/route.ts`) -/

/-- The stored contract row (prisma model `Contract`). -/
structure ContractRecord where
  id : String
  fileName : String
  uploadedAt : Nat
  indemnificationText : Option String
  terminationText : Option String
  status : String
  progress : Nat
deriving DecidableEq

/-- The JSON body of a PUT request: each field possibly absent. -/
structure PutRequest where
  status : Option String
  indemnificationText : Option String
  terminationText : Option String
deriving DecidableEq

/-- The HTTP outcome of the PUT handler. -/
inductive PutResponse where
  | ok (record : ContractRecord)
  | badRequest
  | notFound
deriving DecidableEq

/-- The prisma `update` applied to the stored row: `updateData` always
carries `status`, and each clause field only when the request value is
truthy (route.ts lines 38-57), so an absent or empty clause field leaves
the stored column unchanged and no other column is touched. -/
def applyUpdateData (r : ContractRecord) (st : String) (d : PutRequest) : ContractRecord :=
  { r with
    status := st
    indemnificationText :=
      match d.indemnificationText with
      | some s => if strIsEmpty s then r.indemnificationText else some s
      | none => r.indemnificationText
    terminationText :=
      match d.terminationText with
      | some s => if strIsEmpty s then r.terminationText else some s
      | none => r.terminationText }

/-- The PUT handler (route.ts lines 25-73) over the stored row (`none` =
no row with that id, surfacing as prisma error P2025 → 404).  A falsy
`status` (absent or empty) yields 400 before any update. -/
def putHandler (stored : Option ContractRecord) (data : PutRequest) :
    PutResponse × Option ContractRecord :=
  match data.status with
  | none => (.badRequest, stored)
  | some st =>
    if strIsEmpty st then (.badRequest, stored)
    else
      match stored with
      | none => (.notFound, none)
      | some r =>
        let r' := applyUpdateData r st data
        (.ok r', some r')

/-! ### Helper lemmas -/

theorem strIsEmpty_append (a b : String) :
    strIsEmpty (a ++ b) = (strIsEmpty a && strIsEmpty b) := by
  unfold strIsEmpty
  rw [String.data_append]
  cases a.data <;> simp

theorem jsTruthyOr_nonempty (v : Option String) (d : String)
    (hd : strIsEmpty d = false) : strIsEmpty (jsTruthyOr v d) = false := by
  cases v with
  | none => exact hd
  | some s =>
    unfold jsTruthyOr
    cases hs : strIsEmpty s with
    | true => simp [hs, hd]
    | false => simp [hs]

theorem keywords_ind_nonempty (text : String) :
    strIsEmpty (extractClausesWithKeywords text).indemnificationText = false := by
  unfold extractClausesWithKeywords
  dsimp only
  split
  · decide
  · rename_i h
    rw [Bool.not_eq_true] at h
    exact h

theorem keywords_term_nonempty (text : String) :
    strIsEmpty (extractClausesWithKeywords text).terminationText = false := by
  unfold extractClausesWithKeywords
  dsimp only
  split
  · decide
  · rename_i h
    rw [Bool.not_eq_true] at h
    exact h

theorem ai_ind_nonempty (jsonParse : String → Option ParsedAiResponse)
    (aiResult : Option String) (text : String) :
    strIsEmpty (extractClausesWithAI jsonParse aiResult text).indemnificationText = false := by
  unfold extractClausesWithAI
  cases aiResult with
  | none => exact keywords_ind_nonempty text
  | some c =>
    dsimp only
    split
    · exact keywords_ind_nonempty text
    · cases hp : aiResponseParses jsonParse c with
      | some p =>
        simp only [hp]
        exact jsTruthyOr_nonempty _ _ (by decide)
      | none => simp only [hp]; exact keywords_ind_nonempty text

theorem ai_term_nonempty (jsonParse : String → Option ParsedAiResponse)
    (aiResult : Option String) (text : String) :
    strIsEmpty (extractClausesWithAI jsonParse aiResult text).terminationText = false := by
  unfold extractClausesWithAI
  cases aiResult with
  | none => exact keywords_term_nonempty text
  | some c =>
    dsimp only
    split
    · exact keywords_term_nonempty text
    · cases hp : aiResponseParses jsonParse c with
      | some p =>
        simp only [hp]
        exact jsTruthyOr_nonempty _ _ (by decide)
      | none => simp only [hp]; exact keywords_term_nonempty text

theorem keywordScan_eq (ps : List String) (ind term : String) :
    keywordScan ps ind term =
      (ind ++ joinStr ((ps.filter indemnMatch).map (· ++ "\n\n")),
       term ++ joinStr ((ps.filter termMatch).map (· ++ "\n\n"))) := by
  induction ps generalizing ind term with
  | nil => simp [keywordScan, joinStr]
  | cons p ps ih =>
    cases h1 : indemnMatch p <;> cases h2 : termMatch p <;>
      simp [keywordScan, h1, h2, ih, List.filter_cons, joinStr, String.append_assoc]

/-! ### Claims -/

/-- C1: `extractClausesWithAI` is total (it never raises), and whenever
the model call fails, the response is empty, or the response cannot be
parsed as JSON by either strategy (brace-matched substring first, whole
response only when no substring matches), it returns exactly the keyword
fallback applied to the same input text — a full fallback with no
partial merge. -/
theorem extractClausesWithAI_full_fallback
    (jsonParse : String → Option ParsedAiResponse)
    (aiResult : Option String) (text : String)
    (h : aiPathFails jsonParse aiResult = true) :
    extractClausesWithAI jsonParse aiResult text = extractClausesWithKeywords text := by
  cases aiResult with
  | none => rfl
  | some c =>
    unfold aiPathFails at h
    unfold extractClausesWithAI
    cases hc : strIsEmpty c with
    | true => simp [hc]
    | false =>
      simp only [hc, Bool.false_or] at h
      cases hp : aiResponseParses jsonParse c with
      | some p => rw [hp] at h; simp [Option.isNone] at h
      | none => simp [hc, hp]

/-- Witness for C1 at a concrete failing parse: the response carries no
JSON object and the whole-response parse fails, so the keyword result is
returned. -/
theorem extractClausesWithAI_full_fallback_witness :
    aiPathFails (fun _ => none) (some "no json here") = true ∧
    extractClausesWithAI (fun _ => none) (some "no json here") "Some liability text." =
      extractClausesWithKeywords "Some liability text." :=
  ⟨by decide,
   extractClausesWithAI_full_fallback (fun _ => none) (some "no json here")
     "Some liability text." (by decide)⟩

/-- C3: for every input, whichever extractor produced the pair, both
fields are non-empty strings (a clause text or that field's own
sentinel), and the pair is produced as a whole by one extractor: the AI
result is either the pair read off the parsed response or exactly the
keyword-fallback pair. -/
theorem extraction_result_fields_nonempty
    (jsonParse : String → Option ParsedAiResponse)
    (aiResult : Option String) (text : String) :
    strIsEmpty (extractClausesWithAI jsonParse aiResult text).indemnificationText = false ∧
    strIsEmpty (extractClausesWithAI jsonParse aiResult text).terminationText = false ∧
    strIsEmpty (extractClausesWithKeywords text).indemnificationText = false ∧
    strIsEmpty (extractClausesWithKeywords text).terminationText = false ∧
    ((∃ p, extractClausesWithAI jsonParse aiResult text = aiPairOf p) ∨
      extractClausesWithAI jsonParse aiResult text = extractClausesWithKeywords text) := by
  refine ⟨ai_ind_nonempty _ _ _, ai_term_nonempty _ _ _,
    keywords_ind_nonempty _, keywords_term_nonempty _, ?_⟩
  unfold extractClausesWithAI
  cases aiResult with
  | none => exact Or.inr rfl
  | some c =>
    dsimp only
    split
    · exact Or.inr rfl
    · cases hp : aiResponseParses jsonParse c with
      | some p => exact Or.inl ⟨p, by simp [hp]⟩
      | none => exact Or.inr (by simp [hp])

theorem directText_cons (r : OcrResponse) (rs : List OcrResponse) :
    directText (r :: rs) = responseDirectText r ++ directText rs := by
  simp [directText, joinStr]

theorem directText_map (ts : List String) (h : ∀ t ∈ ts, strIsEmpty t = false) :
    directText (ts.map fun t => ⟨some ⟨some t, none⟩⟩) =
      joinStr (ts.map (· ++ "\n\n")) := by
  induction ts with
  | nil => rfl
  | cons t rest ih =>
    simp only [List.map_cons]
    rw [directText_cons]
    rw [ih fun x hx => h x (List.mem_cons_of_mem t hx)]
    have ht := h t (List.mem_cons_self t rest)
    simp [responseDirectText, ht, joinStr]

theorem extractText_of_direct_nonempty (rs : List OcrResponse)
    (h : strIsEmpty (directText rs) = false) :
    extractTextFromOcrJson ⟨some rs⟩ = trimStr (directText rs) := by
  unfold extractTextFromOcrJson
  simp [h]

/-- C4: the direct path concatenates the responses' full-text strings
with a blank-line separator (the shard result being that concatenation
trimmed); the reassembly loop on no shards yields the empty string; and
on one shard carrying "Hello World" it yields "Hello World" after
trimming.  The last conjunct shows the blank-line separation on two
full-text strings. -/
theorem reassemble_direct_path :
    (∀ ts : List String, (∀ t ∈ ts, strIsEmpty t = false) →
      extractTextFromOcrJson ⟨some (ts.map fun t => ⟨some ⟨some t, none⟩⟩)⟩ =
        trimStr (joinStr (ts.map (· ++ "\n\n")))) ∧
    reassemble [] = "" ∧
    trimStr (reassemble [⟨some [⟨some ⟨some "Hello World", none⟩⟩]⟩]) = "Hello World" ∧
    extractTextFromOcrJson ⟨some [⟨some ⟨some "A", none⟩⟩, ⟨some ⟨some "B", none⟩⟩]⟩ =
      "A\n\nB" := by
  refine ⟨?_, rfl, by decide, by decide⟩
  intro ts h
  cases ts with
  | nil => decide
  | cons t rest =>
    have hne : strIsEmpty (directText ((t :: rest).map fun t => ⟨some ⟨some t, none⟩⟩)) =
        false := by
      rw [directText_map _ h]
      simp only [List.map_cons, joinStr]
      rw [strIsEmpty_append, strIsEmpty_append]
      have ht := h t (List.mem_cons_self t rest)
      simp [ht]
    rw [extractText_of_direct_nonempty _ hne, directText_map _ h]

/-- Witness for C4's universally quantified conjunct, at two concrete
non-empty full-text strings. -/
theorem reassemble_direct_path_witness :
    (∀ t ∈ ["page one", "page two"], strIsEmpty t = false) ∧
    extractTextFromOcrJson
        ⟨some (["page one", "page two"].map fun t => ⟨some ⟨some t, none⟩⟩)⟩ =
      trimStr (joinStr (["page one", "page two"].map (· ++ "\n\n"))) :=
  ⟨by decide, reassemble_direct_path.1 ["page one", "page two"] (by decide)⟩

/-- A word carrying one symbol with the given text. -/
def wordOf (t : String) : OcrWord := ⟨some [⟨some t⟩]⟩

/-- A 1-block/1-paragraph/2-word page, words "word1" and "word2". -/
def c6Page : OcrPage := ⟨some [⟨some [⟨some [wordOf "word1", wordOf "word2"]⟩]⟩]⟩

/-- A shard whose only response has no flattened text field, only pages. -/
def c6Shard : OcrJson := ⟨some [⟨some ⟨none, some [c6Page]⟩⟩]⟩

/-- C6: on a shard missing the flattened field, the direct path yields
nothing and the structural walk emits symbol text with a single space
after each word, a newline after the paragraph and a blank line after
the page ("word1 word2 \n" then "\n\n"), so the trimmed shard result is
"word1 word2". -/
theorem structural_walk_reconstructs :
    directText [⟨some ⟨none, some [c6Page]⟩⟩] = "" ∧
    structuralText [c6Page] = "word1 word2 \n\n\n" ∧
    extractTextFromOcrJson c6Shard = "word1 word2" := by decide

/-- A second response that the structural walk never reads: it has no
flattened text, and its pages spell "IGNORED". -/
def c10Second : OcrResponse :=
  ⟨some ⟨none, some [⟨some [⟨some [⟨some [wordOf "IGNORED"]⟩]⟩]⟩]⟩⟩

/-- C10: when the direct path yields no text, the structural fallback
reads only the first element of the responses array — every response
after the first contributes nothing. -/
theorem structural_fallback_reads_only_first (r0 : OcrResponse)
    (rest : List OcrResponse)
    (h : strIsEmpty (directText (r0 :: rest)) = true) :
    extractTextFromOcrJson ⟨some (r0 :: rest)⟩ = extractTextFromOcrJson ⟨some [r0]⟩ := by
  have h1 : strIsEmpty (directText [r0]) = true := by
    rw [directText_cons] at h
    rw [strIsEmpty_append] at h
    rw [directText_cons]
    rw [strIsEmpty_append]
    simp only [Bool.and_eq_true] at h
    rw [h.1]
    decide
  unfold extractTextFromOcrJson
  simp [h, h1]

/-- Witness for C10: a second response full of pages spelling "IGNORED"
changes nothing about the extracted text. -/
theorem structural_fallback_reads_only_first_witness :
    strIsEmpty (directText [⟨some ⟨none, some [c6Page]⟩⟩, c10Second]) = true ∧
    extractTextFromOcrJson ⟨some [⟨some ⟨none, some [c6Page]⟩⟩, c10Second]⟩ =
      extractTextFromOcrJson ⟨some [⟨some ⟨none, some [c6Page]⟩⟩]⟩ :=
  ⟨by decide,
   structural_fallback_reads_only_first ⟨some ⟨none, some [c6Page]⟩⟩ [c10Second] (by decide)⟩

theorem updateContractStatus_payload (put : PutOutcome) (status : String)
    (clauses : Option ExtractionResult) :
    (updateContractStatus put status clauses).payload = buildPayload status clauses := by
  cases put <;> rfl

theorem updateContractStatus_raised (put : PutOutcome) (status : String)
    (clauses : Option ExtractionResult) :
    (updateContractStatus put status clauses).raised = false := by
  cases put <;> rfl

theorem outputGcsUri_starts (id : String) :
    strStartsWith (outputGcsUri id) "gs://" = true := by
  unfold outputGcsUri strStartsWith
  rw [List.isPrefixOf_iff_prefix]
  simp only [String.data_append, List.append_assoc]
  exact List.prefix_append _ _

/-- Every `extractKnowledge` run either reaches the success branch —
issuing `'extracting'` then `'completed'` together with the clauses
extracted from some combined text — or fails, issuing `'extracting'`
then a clause-free `'failed'` and exiting with code 1. -/
theorem extractKnowledge_cases (puts : Nat → PutOutcome) (env : EKEnv) (gsUri : String) :
    (∃ combined, extractKnowledge puts env gsUri =
        ⟨[updateContractStatus (puts 0) "extracting" none,
          updateContractStatus (puts 1) "completed"
            (some (extractClausesWithAI env.jsonParse env.aiResult combined))],
         .normal⟩) ∨
      extractKnowledge puts env gsUri =
        ⟨[updateContractStatus (puts 0) "extracting" none,
          updateContractStatus (puts 1) "failed" none],
         .exitFailure⟩ := by
  unfold extractKnowledge
  cases h1 : strStartsWith gsUri "gs://" with
  | false => exact Or.inr rfl
  | true =>
    cases h2 : env.listOk with
    | false => simp only [if_true, if_false]; exact Or.inr rfl
    | true =>
      cases h3 : accumulateShards env.files "" with
      | none => simp only [h3]; exact Or.inr rfl
      | some combined =>
        cases h4 : env.fsOk with
        | false => simp only [h3, h4]; exact Or.inr rfl
        | true =>
          cases h5 : env.fsOk2 with
          | false => simp only [h3, h4, h5]; exact Or.inr rfl
          | true => simp only [h3, h4, h5]; exact Or.inl ⟨combined, by simp⟩

/-- An update call whose payload carries neither clause field. -/
def clauseFree (u : UpdateCall) : Bool :=
  u.payload.indemnificationText.isNone && u.payload.terminationText.isNone

theorem clauseFree_none (put : PutOutcome) (status : String) :
    clauseFree (updateContractStatus put status none) = true := by
  cases put <;> rfl

/-- C2: a run that fails during the OCR stage issues exactly
`processing` then `failed`, with neither clause field in any payload; a
run whose extraction process completes ends with a single `completed`
update carrying both (non-empty) clause fields together; and every run
whose final status is `failed` has issued only clause-free payloads. -/
theorem pipeline_failed_runs_clause_free
    (mputs eputs : Nat → PutOutcome) (env : MainEnv) (id gcsUri : String)
    (hid : strIsEmpty id = false) (hgs : strIsEmpty gcsUri = false) :
    (env.ocrOk = false →
      (mainRun mputs eputs env id gcsUri).map (·.payload) =
        [buildPayload "processing" none, buildPayload "failed" none]) ∧
    (env.ocrOk = true →
      (extractKnowledge eputs env.ek (outputGcsUri id)).outcome = .normal →
      ∃ ind term, strIsEmpty ind = false ∧ strIsEmpty term = false ∧
        ∃ u, (mainRun mputs eputs env id gcsUri).getLast? = some u ∧
          u.payload = ⟨"completed", some ind, some term⟩) ∧
    (∀ ulast, (mainRun mputs eputs env id gcsUri).getLast? = some ulast →
      ulast.payload.status = "failed" →
      ∀ u ∈ mainRun mputs eputs env id gcsUri, clauseFree u = true) := by
  have hmain : mainRun mputs eputs env id gcsUri =
      (let u0 := updateContractStatus (mputs 0) "processing" none
       if env.ocrOk then
         let ekRes := extractKnowledge eputs env.ek (outputGcsUri id)
         match ekRes.outcome with
         | .normal => u0 :: ekRes.calls
         | .exitFailure => u0 :: ekRes.calls ++ [updateContractStatus (mputs 1) "failed" none]
       else [u0, updateContractStatus (mputs 1) "failed" none]) := by
    unfold mainRun
    rw [hid, hgs]
    rfl
  refine ⟨?_, ?_, ?_⟩
  · intro hoc
    rw [hmain]
    simp [hoc, updateContractStatus_payload]
  · intro hoc hek
    rcases extractKnowledge_cases eputs env.ek (outputGcsUri id) with ⟨combined, hc⟩ | hc
    · refine ⟨(extractClausesWithAI env.ek.jsonParse env.ek.aiResult combined).indemnificationText,
        (extractClausesWithAI env.ek.jsonParse env.ek.aiResult combined).terminationText,
        ai_ind_nonempty _ _ _, ai_term_nonempty _ _ _, ?_⟩
      rw [hmain]
      refine ⟨updateContractStatus (eputs 1) "completed"
        (some (extractClausesWithAI env.ek.jsonParse env.ek.aiResult combined)), ?_, ?_⟩
      · simp [hoc, hc]
      · rw [updateContractStatus_payload]
        simp [buildPayload, ai_ind_nonempty, ai_term_nonempty]
    · rw [hc] at hek
      exact absurd hek (by simp)
  · intro ulast hlast hfail u hu
    rw [hmain] at hlast hu
    cases hoc : env.ocrOk with
    | false =>
      rw [hoc] at hlast hu
      simp only [if_neg Bool.false_ne_true] at hlast hu
      rcases List.mem_pair.mp (by simpa using hu) with h | h <;>
        (subst h; exact clauseFree_none _ _)
    | true =>
      rcases extractKnowledge_cases eputs env.ek (outputGcsUri id) with ⟨combined, hc⟩ | hc
      · rw [hoc, hc] at hlast
        simp only [if_true] at hlast
        have h1 : updateContractStatus (eputs 1) "completed"
            (some (extractClausesWithAI env.ek.jsonParse env.ek.aiResult combined)) =
              ulast := by
          simpa using hlast
        rw [← h1, updateContractStatus_payload] at hfail
        simp [buildPayload] at hfail
      · rw [hoc, hc] at hu
        simp at hu
        rcases hu with h | h | h | h <;> (subst h; exact clauseFree_none _ _)

/-- Witness for C2 at a concrete OCR failure. -/
theorem pipeline_failed_runs_clause_free_witness :
    strIsEmpty "doc1" = false ∧ strIsEmpty "gs://in/d.pdf" = false ∧
    (mainRun (fun _ => .ok 200) (fun _ => .ok 200)
        ⟨false, ⟨true, [], true, true, fun _ => none, none⟩⟩ "doc1" "gs://in/d.pdf").map
        (·.payload) =
      [buildPayload "processing" none, buildPayload "failed" none] :=
  ⟨by decide, by decide,
   (pipeline_failed_runs_clause_free (fun _ => .ok 200) (fun _ => .ok 200)
      ⟨false, ⟨true, [], true, true, fun _ => none, none⟩⟩ "doc1" "gs://in/d.pdf"
      (by decide) (by decide)).1 rfl⟩

/-- C7: a shard whose content does not parse as JSON contributes nothing
and is skipped, leaving the remaining shards' processing unchanged; an
empty assembled text still runs extraction, yielding both sentinels, and
the run still completes rather than failing. -/
theorem corrupt_shard_skipped :
    (∀ (pre post : List OcrFile) (f : OcrFile) (acc : String),
      strEndsWith f.name ".json" = true → f.downloadOk = true → f.parsed = none →
      accumulateShards (pre ++ f :: post) acc = accumulateShards (pre ++ post) acc) ∧
    extractClausesWithKeywords "" = ⟨noIndemnification, noTermination⟩ ∧
    (∀ (puts : Nat → PutOutcome) (name : String), strEndsWith name ".json" = true →
      (extractKnowledge puts ⟨true, [⟨name, true, none⟩], true, true, fun _ => none, none⟩
          (outputGcsUri "doc1")).outcome = .normal ∧
      (extractKnowledge puts ⟨true, [⟨name, true, none⟩], true, true, fun _ => none, none⟩
          (outputGcsUri "doc1")).calls.map (·.payload) =
        [buildPayload "extracting" none,
         buildPayload "completed" (some ⟨noIndemnification, noTermination⟩)]) := by
  refine ⟨?_, by decide, ?_⟩
  · intro pre post f acc hn hd hp
    induction pre generalizing acc with
    | nil => simp [accumulateShards, hn, hd, hp]
    | cons g gs ih =>
      simp only [List.cons_append, accumulateShards]
      cases hg1 : strEndsWith g.name ".json"
      · simp [hg1, ih]
      · cases hg2 : g.downloadOk
        · simp [hg1, hg2]
        · cases hgp : g.parsed with
          | none => simp [hg1, hg2, hgp, ih]
          | some j => simp [hg1, hg2, hgp, ih]
  · intro puts name hname
    have hacc : accumulateShards [(⟨name, true, none⟩ : OcrFile)] "" = some "" := by
      simp [accumulateShards, hname]
    unfold extractKnowledge
    rw [outputGcsUri_starts]
    simp only [hacc, if_true]
    refine ⟨by simp, ?_⟩
    simp only [List.map_cons, List.map_nil, updateContractStatus_payload]
    decide

/-- Witness for C7: one unparseable shard named "a.json". -/
theorem corrupt_shard_skipped_witness :
    strEndsWith "a.json" ".json" = true ∧
    accumulateShards ([] ++ (⟨"a.json", true, none⟩ : OcrFile) :: []) "x" =
      accumulateShards ([] ++ []) "x" ∧
    (extractKnowledge (fun _ => .ok 200)
        ⟨true, [⟨"a.json", true, none⟩], true, true, fun _ => none, none⟩
        (outputGcsUri "doc1")).outcome = .normal :=
  ⟨by decide,
   corrupt_shard_skipped.1 [] [] ⟨"a.json", true, none⟩ "x" (by decide) rfl rfl,
   (corrupt_shard_skipped.2.2 (fun _ => .ok 200) "a.json" (by decide)).1⟩

/-- The payload sequence and exit outcome of `extractKnowledge` do not
depend on the remote outcomes of its status puts. -/
theorem extractKnowledge_puts_indep (e1 e2 : Nat → PutOutcome) (env : EKEnv)
    (gsUri : String) :
    (extractKnowledge e1 env gsUri).calls.map (·.payload) =
      (extractKnowledge e2 env gsUri).calls.map (·.payload) ∧
    (extractKnowledge e1 env gsUri).outcome = (extractKnowledge e2 env gsUri).outcome := by
  unfold extractKnowledge
  cases h1 : strStartsWith gsUri "gs://" <;>
    cases h2 : env.listOk <;>
    rcases h3 : accumulateShards env.files "" with _ | c <;>
    cases h4 : env.fsOk <;>
    cases h5 : env.fsOk2 <;>
    simp [h1, h2, h3, h4, h5, updateContractStatus_payload]

theorem extractKnowledge_never_raises (puts : Nat → PutOutcome) (env : EKEnv)
    (gsUri : String) :
    ∀ u ∈ (extractKnowledge puts env gsUri).calls, u.raised = false := by
  intro u hu
  rcases extractKnowledge_cases puts env gsUri with ⟨combined, hc⟩ | hc <;>
    rw [hc] at hu <;> simp at hu <;>
    rcases hu with h | h <;> (subst h; exact updateContractStatus_raised _ _ _)

/-- C8: every status persistence call is fire-and-forget — it never
raises, a failed remote put is logged, and the payload sequence of a
whole run is independent of the remote outcomes of its puts, so a lost
status write never changes the run's subsequent control flow. -/
theorem status_updates_fire_and_forget :
    (∀ (put : PutOutcome) (status : String) (clauses : Option ExtractionResult),
      (updateContractStatus put status clauses).raised = false) ∧
    (∀ (msg : String) (status : String) (clauses : Option ExtractionResult),
      (updateContractStatus (.err msg) status clauses).errorLogged = true ∧
      (updateContractStatus (.err msg) status clauses).payload = buildPayload status clauses) ∧
    (∀ (p1 e1 p2 e2 : Nat → PutOutcome) (env : MainEnv) (id gcsUri : String),
      (mainRun p1 e1 env id gcsUri).map (·.payload) =
        (mainRun p2 e2 env id gcsUri).map (·.payload)) ∧
    (∀ (p e : Nat → PutOutcome) (env : MainEnv) (id gcsUri : String),
      ∀ u ∈ mainRun p e env id gcsUri, u.raised = false) := by
  refine ⟨updateContractStatus_raised, fun msg status clauses => ⟨rfl, rfl⟩, ?_, ?_⟩
  · intro p1 e1 p2 e2 env id gcsUri
    unfold mainRun
    cases h0 : (strIsEmpty id || strIsEmpty gcsUri)
    · cases hoc : env.ocrOk
      · simp [hoc, updateContractStatus_payload]
      · have hind := extractKnowledge_puts_indep e1 e2 env.ek (outputGcsUri id)
        simp only [hoc, if_true, Bool.false_eq_true, if_false]
        rw [← hind.2]
        cases ho : (extractKnowledge e1 env.ek (outputGcsUri id)).outcome <;>
          simp [ho, hind.1, updateContractStatus_payload]
    · simp
  · intro p e env id gcsUri u hu
    unfold mainRun at hu
    cases h0 : (strIsEmpty id || strIsEmpty gcsUri) <;> rw [h0] at hu
    · cases hoc : env.ocrOk <;> rw [hoc] at hu
      · simp at hu
        rcases hu with h | h <;> (subst h; exact updateContractStatus_raised _ _ _)
      · simp only [if_true] at hu
        cases ho : (extractKnowledge e env.ek (outputGcsUri id)).outcome <;>
          rw [ho] at hu
        · simp at hu
          rcases hu with h | h
          · subst h; exact updateContractStatus_raised _ _ _
          · exact extractKnowledge_never_raises e env.ek (outputGcsUri id) u h
        · simp at hu
          rcases hu with h | h | h
          · subst h; exact updateContractStatus_raised _ _ _
          · exact extractKnowledge_never_raises e env.ek (outputGcsUri id) u h
          · subst h; exact updateContractStatus_raised _ _ _
    · simp at hu

/-- Witness for C8: a failing put is logged, does not raise, and leaves
the run's payload sequence identical to the all-successful run. -/
theorem status_updates_fire_and_forget_witness :
    (updateContractStatus (.err "ECONNREFUSED") "completed" none).raised = false ∧
    (updateContractStatus (.err "ECONNREFUSED") "completed" none).errorLogged = true ∧
    (mainRun (fun _ => .err "ECONNREFUSED") (fun _ => .err "ECONNREFUSED")
        ⟨true, ⟨true, [], true, true, fun _ => none, none⟩⟩ "doc1" "gs://in/d.pdf").map
        (·.payload) =
      (mainRun (fun _ => .ok 200) (fun _ => .ok 200)
        ⟨true, ⟨true, [], true, true, fun _ => none, none⟩⟩ "doc1" "gs://in/d.pdf").map
        (·.payload) :=
  ⟨status_updates_fire_and_forget.1 (.err "ECONNREFUSED") "completed" none,
   (status_updates_fire_and_forget.2.1 "ECONNREFUSED" "completed" none).1,
   status_updates_fire_and_forget.2.2.1 (fun _ => .err "ECONNREFUSED")
     (fun _ => .err "ECONNREFUSED") (fun _ => .ok 200) (fun _ => .ok 200)
     ⟨true, ⟨true, [], true, true, fun _ => none, none⟩⟩ "doc1" "gs://in/d.pdf"⟩

/-- C5: the keyword extractor splits on blank lines and, in one pass,
its indemnification buffer collects exactly the paragraphs matching the
indemnification terms and its termination buffer exactly those matching
a termination stem plus qualifier, each with a blank-line separator; a
paragraph matching both predicates lands in both buffers. -/
theorem keyword_buffers_characterized (text : String) :
    keywordScan (splitOnBlank text) "" "" =
      (joinStr (((splitOnBlank text).filter indemnMatch).map (· ++ "\n\n")),
       joinStr (((splitOnBlank text).filter termMatch).map (· ++ "\n\n"))) ∧
    ∀ p ∈ splitOnBlank text, indemnMatch p = true → termMatch p = true →
      p ∈ (splitOnBlank text).filter indemnMatch ∧
        p ∈ (splitOnBlank text).filter termMatch := by
  constructor
  · rw [keywordScan_eq]
    rw [String.empty_append, String.empty_append]
  · intro p hp h1 h2
    exact ⟨List.mem_filter.mpr ⟨hp, h1⟩, List.mem_filter.mpr ⟨hp, h2⟩⟩

/-- Witness for C5: a paragraph carrying both "liability" and
"termination ... convenience" appears in both filtered buffers. -/
theorem keyword_buffers_characterized_witness :
    "Liability survives termination for convenience." ∈
        splitOnBlank "Liability survives termination for convenience." ∧
    indemnMatch "Liability survives termination for convenience." = true ∧
    termMatch "Liability survives termination for convenience." = true ∧
    "Liability survives termination for convenience." ∈
        (splitOnBlank "Liability survives termination for convenience.").filter indemnMatch ∧
    "Liability survives termination for convenience." ∈
        (splitOnBlank "Liability survives termination for convenience.").filter termMatch := by
  refine ⟨by decide, by decide, by decide, ?_, ?_⟩
  · exact ((keyword_buffers_characterized
      "Liability survives termination for convenience.").2
      "Liability survives termination for convenience." (by decide) (by decide) (by decide)).1
  · exact ((keyword_buffers_characterized
      "Liability survives termination for convenience.").2
      "Liability survives termination for convenience." (by decide) (by decide) (by decide)).2

/-- C9: in the PUT endpoint, a missing or empty status yields 400 before
any update; with a truthy status, an absent or empty clause field is
silently excluded so the stored clause column is unchanged, a truthy
clause string is written, and no column besides status and the provided
truthy clause fields is modified. -/
theorem put_route_clause_frame (r : ContractRecord) (data : PutRequest) :
    (data.status = none → putHandler (some r) data = (.badRequest, some r)) ∧
    (∀ st, data.status = some st → strIsEmpty st = true →
      putHandler (some r) data = (.badRequest, some r)) ∧
    (∀ st, data.status = some st → strIsEmpty st = false →
      putHandler (some r) data =
        (.ok (applyUpdateData r st data), some (applyUpdateData r st data)) ∧
      (applyUpdateData r st data).status = st ∧
      (applyUpdateData r st data).id = r.id ∧
      (applyUpdateData r st data).fileName = r.fileName ∧
      (applyUpdateData r st data).uploadedAt = r.uploadedAt ∧
      (applyUpdateData r st data).progress = r.progress ∧
      ((data.indemnificationText = none ∨ data.indemnificationText = some "") →
        (applyUpdateData r st data).indemnificationText = r.indemnificationText) ∧
      (∀ s, data.indemnificationText = some s → strIsEmpty s = false →
        (applyUpdateData r st data).indemnificationText = some s) ∧
      ((data.terminationText = none ∨ data.terminationText = some "") →
        (applyUpdateData r st data).terminationText = r.terminationText) ∧
      (∀ s, data.terminationText = some s → strIsEmpty s = false →
        (applyUpdateData r st data).terminationText = some s)) := by
  refine ⟨?_, ?_, ?_⟩
  · intro h
    simp [putHandler, h]
  · intro st hst he
    simp [putHandler, hst, he]
  · intro st hst hne
    refine ⟨by simp [putHandler, hst, hne], rfl, rfl, rfl, rfl, rfl, ?_, ?_, ?_, ?_⟩
    · rintro (h | h) <;> simp [applyUpdateData, h, (by decide : strIsEmpty "" = true)]
    · intro s hs hsne
      simp [applyUpdateData, hs, hsne]
    · rintro (h | h) <;> simp [applyUpdateData, h, (by decide : strIsEmpty "" = true)]
    · intro s hs hsne
      simp [applyUpdateData, hs, hsne]

/-- Witness for C9: an empty indemnification field in the payload leaves
the stored clause untouched while the truthy termination field is
written and the unrelated columns survive. -/
theorem put_route_clause_frame_witness :
    strIsEmpty "completed" = false ∧
    putHandler (some ⟨"c1", "f.pdf", 7, some "old indemnification", none, "extracting", 40⟩)
        ⟨some "completed", some "", some "Termination at will."⟩ =
      (.ok (applyUpdateData ⟨"c1", "f.pdf", 7, some "old indemnification", none, "extracting", 40⟩
              "completed" ⟨some "completed", some "", some "Termination at will."⟩),
       some (applyUpdateData ⟨"c1", "f.pdf", 7, some "old indemnification", none, "extracting", 40⟩
              "completed" ⟨some "completed", some "", some "Termination at will."⟩)) ∧
    (applyUpdateData ⟨"c1", "f.pdf", 7, some "old indemnification", none, "extracting", 40⟩
        "completed" ⟨some "completed", some "", some "Termination at will."⟩).indemnificationText =
      some "old indemnification" ∧
    (applyUpdateData ⟨"c1", "f.pdf", 7, some "old indemnification", none, "extracting", 40⟩
        "completed" ⟨some "completed", some "", some "Termination at will."⟩).terminationText =
      some "Termination at will." ∧
    (applyUpdateData ⟨"c1", "f.pdf", 7, some "old indemnification", none, "extracting", 40⟩
        "completed" ⟨some "completed", some "", some "Termination at will."⟩).fileName = "f.pdf" := by
  have h := (put_route_clause_frame
    ⟨"c1", "f.pdf", 7, some "old indemnification", none, "extracting", 40⟩
    ⟨some "completed", some "", some "Termination at will."⟩).2.2 "completed" rfl (by decide)
  exact ⟨by decide, h.1, h.2.2.2.2.2.2.1 (Or.inr rfl),
    h.2.2.2.2.2.2.2.2.2 "Termination at will." rfl (by decide), h.2.2.2.1⟩
